import Mathlib

/-!
# SAPC tty driver (`tty.c`): shallow embedding and verified properties

The driver state (the `ttytab` line blocks, the two global queues `RX_Queue`
and `TX_Queue`, `debug_record`) is an explicit record that every routine
transforms.  Calls that leave the driver (`inpt`, `outpt`, `pic_end_int`,
`set_intr_gate`, `pic_enable_irq`, `kprintf`) are appended to an event trace.
`char` values are represented by their 8-bit patterns as natural numbers.

The constants of `<serial.h>`, `<pic.h>`, `tty_public.h` and the device table
of `ioconf.h` are not part of `tty.c`; they are the fields of `Config`, a
parameter of every routine that uses them.  `sapc` is the usual PC
instantiation, used for concrete evaluations.
-/

namespace SapcTty

/-! ## The queue package (`queue/queue.h`) -/

/-- Modelled from the spec: the bounded circular queue of `queue/queue.h`,
which `tty.c` includes but which is not among the sources.  Fixed-size backing
storage of capacity `max`, write index (`inIdx`, the spec's `in`), read index
(`outIdx`, the spec's `out`) and live count `num`. -/
structure Queue where
  store : List Nat
  max : Nat
  inIdx : Nat
  outIdx : Nat
  num : Nat
deriving DecidableEq, Repr

/-- Modelled from the spec: `init(capacity)` of the absent queue package,
"allocates/resets storage; num=0, in=0, out=0". -/
def init_queue (_q : Queue) (max_chars : Nat) : Queue :=
  { store := List.replicate max_chars 0, max := max_chars, inIdx := 0, outIdx := 0, num := 0 }

/-- Modelled from the spec: `enqueue(byte)` of the absent queue package,
"stores byte at index in, advances in modulo capacity, increments num.  Caller
must ensure num < capacity beforehand".  The routine itself makes no check (the
spec: the original design does not have "enqueue itself fail"). -/
def enqueue (q : Queue) (ch : Nat) : Queue :=
  { q with store := q.store.set q.inIdx ch, inIdx := (q.inIdx + 1) % q.max, num := q.num + 1 }

/-- Modelled from the spec: `dequeue()` of the absent queue package, "returns
the byte at index out, advances out modulo capacity, decrements num".  The spec
leaves the empty case undefined; here it returns 0 and changes nothing (every
`dequeue` of the driver sits behind a `queuecount` test). -/
def dequeue (q : Queue) : Nat × Queue :=
  if q.num = 0 then (0, q)
  else (q.store.getD q.outIdx 0, { q with outIdx := (q.outIdx + 1) % q.max, num := q.num - 1 })

/-- Modelled from the spec: `count()` of the absent queue package, "returns
num, side-effect-free". -/
def queuecount (q : Queue) : Nat := q.num

/-- The unread bytes of a queue, oldest first. -/
def Queue.toList (q : Queue) : List Nat :=
  (List.range q.num).map (fun i => q.store.getD ((q.outIdx + i) % q.max) 0)

/-- Representation invariant of the circular queue. -/
def Queue.WF (q : Queue) : Prop :=
  q.store.length = q.max ∧ 0 < q.max ∧ q.outIdx < q.max ∧ q.num ≤ q.max ∧
    q.inIdx = (q.outIdx + q.num) % q.max

instance (q : Queue) : Decidable q.WF := by
  unfold Queue.WF; infer_instance

/-! ## Driver state -/

/-- Modelled from the spec: the queue depth `MAXBUF`, defined in the absent
`tty.h`.  The spec gives capacity 6 and `ttyinit` says "create RX_QUEUE with
depth 6". -/
def MAXBUF : Nat := 6

/-- The address `DEBUG_AREA` of the debug log. -/
def DEBUG_AREA : Nat := 0x300000

/-- The C operator `!` on an integer constant. -/
def lnot (x : Nat) : Nat := if x = 0 then 1 else 0

/-- Modelled from the spec: the line state block `struct tty`, declared in the
absent `tty.h`: the echo flag and the read index, write index and live-count
mirrors of both directions, under the field names `tty.c` uses. -/
structure tty where
  echoflag : Int
  rin : Int
  rout : Int
  rnum : Int
  tin : Int
  tout : Int
  tnum : Int
deriving DecidableEq, Repr

/-- Modelled from the spec: one row of the device binding table, declared in
the absent `ioconf.h`: the hardware base port and the reference to the line
state block (an index into `ttytab`). -/
structure DevEntry where
  dvbaseport : Nat
  dvdata : Nat
deriving DecidableEq, Repr

/-- Constants and tables that `tty.c` takes from headers that are not among the
sources (`serial.h`, `pic.h`, `tty_public.h`, `ioconf.h`).  Their values are
left open: every routine takes a `Config` as a parameter. -/
structure Config where
  COM1_BASE : Nat
  COM2_BASE : Nat
  COM1_IRQ : Nat
  COM2_IRQ : Nat
  IRQ_TO_INT_N_SHIFT : Nat
  UART_RX : Nat
  UART_TX : Nat
  UART_IER : Nat
  UART_IIR : Nat
  UART_IER_RDI : Nat
  UART_IER_THRI : Nat
  UART_IIR_ID : Nat
  UART_IIR_RDI : Nat
  UART_IIR_THRI : Nat
  ECHOCONTROL : Int
  devtab : Nat → DevEntry

/-- The assembler shells that can be installed in an interrupt gate. -/
inductive Handler
  | irq3inthand
  | irq4inthand
deriving DecidableEq, Repr

/-- Calls that leave the driver, in program order. -/
inductive Event
  | inpt (port : Nat)
  | outpt (port : Nat) (val : Nat)
  | pic_end_int
  | set_intr_gate (n : Nat) (h : Handler)
  | pic_enable_irq (irq : Nat)
  | kprintf (dev : Nat)
deriving DecidableEq, Repr

/-- Which queue routine was called. -/
inductive QOp
  | enq
  | deq
deriving DecidableEq, Repr

/-- Which of the two global queues. -/
inductive QId
  | rx
  | tx
deriving DecidableEq, Repr

/-- History record of one `enqueue`/`dequeue` call made by the driver: the
routine, the queue, and `queuecount` of that queue just before the call. -/
structure QCall where
  op : QOp
  q : QId
  count : Nat
deriving DecidableEq, Repr

/-- Global state of the driver.  `trace` and `qcalls` are histories: they are
only ever appended to and never read by the code. -/
structure Driver where
  ttytab : Nat → tty
  RX_Queue : Queue
  TX_Queue : Queue
  debug_record : Nat
  trace : List Event
  qcalls : List QCall

/-- Append one external call to the trace. -/
def emit (s : Driver) (e : Event) : Driver := { s with trace := s.trace ++ [e] }

/-- The call `enqueue(rxq, ch)`; the result of `enqueue` is not looked at. -/
def rx_enqueue (s : Driver) (ch : Nat) : Driver :=
  { s with RX_Queue := enqueue s.RX_Queue ch,
           qcalls := s.qcalls ++ [⟨.enq, .rx, queuecount s.RX_Queue⟩] }

/-- The call `enqueue(txq, ch)`. -/
def tx_enqueue (s : Driver) (ch : Nat) : Driver :=
  { s with TX_Queue := enqueue s.TX_Queue ch,
           qcalls := s.qcalls ++ [⟨.enq, .tx, queuecount s.TX_Queue⟩] }

/-- The call `dequeue(rxq)`: the byte and the new state. -/
def rx_dequeue (s : Driver) : Nat × Driver :=
  ((dequeue s.RX_Queue).1,
   { s with RX_Queue := (dequeue s.RX_Queue).2,
            qcalls := s.qcalls ++ [⟨.deq, .rx, queuecount s.RX_Queue⟩] })

/-- The call `dequeue(txq)`: the byte and the new state. -/
def tx_dequeue (s : Driver) : Nat × Driver :=
  ((dequeue s.TX_Queue).1,
   { s with TX_Queue := (dequeue s.TX_Queue).2,
            qcalls := s.qcalls ++ [⟨.deq, .tx, queuecount s.TX_Queue⟩] })

/-! ## The interrupt handler -/

/-- The loop `while (queuecount(txq) != 0) { ch = dequeue(txq); outpt(baseport+UART_TX, ch); }`
of `irqinthandc`. -/
def txdrain (k : Config) (baseport : Nat) (s : Driver) : Driver :=
  if queuecount s.TX_Queue ≠ 0 then
    let r := tx_dequeue s
    txdrain k baseport (emit r.2 (.outpt (baseport + k.UART_TX) r.1))
  else s
termination_by s.TX_Queue.num
decreasing_by
  simp only [queuecount] at *
  simp only [emit, tx_dequeue, dequeue]
  split
  · simp_all
  · simp only; omega

/-- How control leaves the `switch` of `irqinthandc`: by `return`, or by
running off its end with the current value of `ch`. -/
inductive Flow
  | ret (s : Driver)
  | next (s : Driver) (ch : Nat)

/-- Body of `case UART_IIR_THRI:`; it has no `break`, so it runs into
`default: return;`. -/
def caseTHRI (k : Config) (baseport : Nat) (s : Driver) : Flow :=
  let s := emit s .pic_end_int
  let s := txdrain k baseport s
  .ret s

/-- Body of `case UART_IIR_RDI:`; it has no `break`, so it runs into
`case UART_IIR_THRI:`. -/
def caseRDI (k : Config) (baseport : Nat) (s : Driver) (rxv : Nat) : Flow :=
  let s := emit s .pic_end_int
  let s := emit s (.inpt (baseport + k.UART_RX))
  let ch := rxv
  let s := rx_enqueue s ch
  caseTHRI k baseport s

/-- The common interrupt handler `irqinthandc(dev)`.  `iirv` is the value the
interrupt-identification register delivers and `rxv` the value the receive
register would deliver.  Port writes made here do not deliver further
interrupts (the handler is not re-entered). -/
def irqinthandc (k : Config) (s : Driver) (dev : Nat) (iirv rxv : Nat) : Driver :=
  let t := (k.devtab dev).dvdata
  let baseport := (k.devtab dev).dvbaseport
  let s := emit s (.inpt (baseport + k.UART_IIR))
  let iir := iirv
  let flow :=
    if iir &&& k.UART_IIR_ID = k.UART_IIR_RDI then caseRDI k baseport s rxv
    else if iir &&& k.UART_IIR_ID = k.UART_IIR_THRI then caseTHRI k baseport s
    else Flow.ret s
  match flow with
  | .ret s => s
  | .next s ch =>
    if (s.ttytab t).echoflag ≠ 0 then emit s (.outpt (baseport + k.UART_TX) ch) else s

/-- The handler `irq4inthandc`. -/
def irq4inthandc (k : Config) (TTY0 : Nat) (s : Driver) (iirv rxv : Nat) : Driver :=
  irqinthandc k s TTY0 iirv rxv

/-- The handler `irq3inthandc`. -/
def irq3inthandc (k : Config) (TTY1 : Nat) (s : Driver) (iirv rxv : Nat) : Driver :=
  irqinthandc k s TTY1 iirv rxv

/-! ## Hardware reaction to port writes of the synchronous routines -/

/-- One interrupt request: the line it belongs to and what the device registers
deliver to the handler. -/
structure Irq where
  dev : Nat
  iir : Nat
  rx : Nat
deriving DecidableEq, Repr

/-- A hardware model: the interrupts delivered right after a port write
`outpt(port, val)` made by `ttyinit`/`ttywrite` in a given state. -/
abbrev Uart := Driver → Nat → Nat → List Irq

/-- Service a list of interrupts in order. -/
def service (k : Config) (s : Driver) (irqs : List Irq) : Driver :=
  irqs.foldl (fun s i => irqinthandc k s i.dev i.iir i.rx) s

/-- The call `outpt(port, val)` in synchronous code: the write, then whatever
interrupts the hardware model delivers. -/
def outpt (k : Config) (hw : Uart) (s : Driver) (port val : Nat) : Driver :=
  let s1 := emit s (.outpt port val)
  service k s1 (hw s1 port val)

/-- Hardware that delivers no interrupt. -/
def noIrq : Uart := fun _ _ _ => []

/-- Hardware that answers each write of `UART_IER_THRI` to the interrupt-enable
register of line `dev` with one interrupt whose identification is `iirv`. -/
def thriIrq (k : Config) (dev iirv rxv : Nat) : Uart := fun _ port val =>
  if port = (k.devtab dev).dvbaseport + k.UART_IER ∧ val = k.UART_IER_THRI then
    [⟨dev, iirv, rxv⟩]
  else []

/-! ## `ttyinit`, `ttyread`, `ttywrite`, `ttycontrol` -/

/-- The routine `ttyinit(dev)`. -/
def ttyinit (k : Config) (hw : Uart) (s : Driver) (dev : Nat) : Driver :=
  let s := { s with RX_Queue := init_queue s.RX_Queue MAXBUF }
  let s := { s with TX_Queue := init_queue s.TX_Queue MAXBUF }
  let s := { s with debug_record := DEBUG_AREA }
  let baseport := (k.devtab dev).dvbaseport
  let t := (k.devtab dev).dvdata
  let armed : Option Driver :=
    if baseport = k.COM1_BASE then
      let s := emit s (.set_intr_gate (k.COM1_IRQ + k.IRQ_TO_INT_N_SHIFT) .irq4inthand)
      some (emit s (.pic_enable_irq k.COM1_IRQ))
    else if baseport = k.COM2_BASE then
      let s := emit s (.set_intr_gate (k.COM2_IRQ + k.IRQ_TO_INT_N_SHIFT) .irq3inthand)
      some (emit s (.pic_enable_irq k.COM2_IRQ))
    else none
  match armed with
  | none => emit s (.kprintf dev)
  | some s =>
    let s := { s with ttytab := Function.update s.ttytab t ⟨1, 0, 0, 0, 0, 0, 0⟩ }
    outpt k hw s (baseport + k.UART_IER) k.UART_IER_RDI

/-- The loop of `ttyread`; `fuel` bounds the number of iterations, `none` means
the bound was reached.  No interrupt is serviced while it spins. -/
def ttyreadLoop : Nat → Driver → (Nat → Nat) → Int → Nat → Option (Driver × (Nat → Nat) × Nat)
  | fuel, s, buf, nchar, charcount =>
    if nchar ≠ 0 then
      match fuel with
      | 0 => none
      | fuel + 1 =>
        if queuecount s.RX_Queue > 0 then
          let r := rx_dequeue s
          ttyreadLoop fuel r.2 (Function.update buf charcount r.1) (nchar - 1) (charcount + 1)
        else ttyreadLoop fuel s buf nchar charcount
    else some (s, buf, charcount)

/-- The routine `ttyread(dev, buf, nchar)`: final state, final contents of the
caller's buffer, and the returned count. -/
def ttyread (fuel : Nat) (s : Driver) (_dev : Nat) (buf : Nat → Nat) (nchar : Int) :
    Option (Driver × (Nat → Nat) × Nat) :=
  ttyreadLoop fuel s buf nchar 0

/-- The three writes to the interrupt-enable register that `ttywrite` issues:
`UART_IER_THRI`, `!UART_IER_THRI`, `UART_IER_RDI`. -/
def kick (k : Config) (hw : Uart) (s : Driver) (baseport : Nat) : Driver :=
  let s := outpt k hw s (baseport + k.UART_IER) k.UART_IER_THRI
  let s := outpt k hw s (baseport + k.UART_IER) (lnot k.UART_IER_THRI)
  outpt k hw s (baseport + k.UART_IER) k.UART_IER_RDI

/-- The loop of `ttywrite`; `fuel` bounds the number of iterations. -/
def ttywriteLoop (k : Config) (hw : Uart) (baseport : Nat) (buf : Nat → Nat) :
    Nat → Driver → Int → Nat → Option (Driver × Nat)
  | fuel, s, nchar, charcount =>
    if nchar ≠ 0 then
      match fuel with
      | 0 => none
      | fuel + 1 =>
        if queuecount s.TX_Queue = MAXBUF then
          ttywriteLoop k hw baseport buf fuel (kick k hw s baseport) nchar charcount
        else
          let ch := buf charcount
          ttywriteLoop k hw baseport buf fuel (tx_enqueue s ch) (nchar - 1) (charcount + 1)
    else some (s, charcount)

/-- The routine `ttywrite(dev, buf, nchar)`: final state and returned count. -/
def ttywrite (k : Config) (hw : Uart) (fuel : Nat) (s : Driver) (dev : Nat) (buf : Nat → Nat)
    (nchar : Int) : Option (Driver × Nat) :=
  let baseport := (k.devtab dev).dvbaseport
  match ttywriteLoop k hw baseport buf fuel s nchar 0 with
  | none => none
  | some (s, charcount) => some (kick k hw s baseport, charcount)

/-- The routine `ttycontrol(dev, fncode, val)`: final state and return value. -/
def ttycontrol (k : Config) (s : Driver) (dev : Nat) (fncode val : Int) : Driver × Int :=
  let this_tty := (k.devtab dev).dvdata
  if fncode = k.ECHOCONTROL then
    let blk := s.ttytab this_tty
    ({ s with ttytab := Function.update s.ttytab this_tty { blk with echoflag := val } }, 0)
  else (s, -1)

/-! ## A concrete configuration -/

/-- The PC values: COM1 at 0x3f8 on IRQ 4 is device 0, COM2 at 0x2f8 on IRQ 3
is device 1; every other device number has base port 0. -/
def sapc : Config where
  COM1_BASE := 0x3f8
  COM2_BASE := 0x2f8
  COM1_IRQ := 4
  COM2_IRQ := 3
  IRQ_TO_INT_N_SHIFT := 0x20
  UART_RX := 0
  UART_TX := 0
  UART_IER := 1
  UART_IIR := 2
  UART_IER_RDI := 0x01
  UART_IER_THRI := 0x02
  UART_IIR_ID := 0x06
  UART_IIR_RDI := 0x04
  UART_IIR_THRI := 0x02
  ECHOCONTROL := 1
  devtab := fun dev =>
    if dev = 0 then ⟨0x3f8, 0⟩ else if dev = 1 then ⟨0x2f8, 1⟩ else ⟨0, dev⟩

/-- A state before any initialisation: zeroed memory, empty histories. -/
def boot : Driver where
  ttytab := fun _ => ⟨0, 0, 0, 0, 0, 0, 0⟩
  RX_Queue := ⟨[], 0, 0, 0, 0⟩
  TX_Queue := ⟨[], 0, 0, 0, 0⟩
  debug_record := 0
  trace := []
  qcalls := []

/-! ## Vocabulary of the statements -/

/-- The values written to the transmit-data register of the line at `baseport`
within a list of events, in order. -/
def txBytes (k : Config) (baseport : Nat) (evs : List Event) : List Nat :=
  evs.filterMap (fun e =>
    match e with
    | .outpt p v => if p = baseport + k.UART_TX then some v else none
    | _ => none)

/-- The history entries of a drain of a transmit queue holding `n` bytes:
`dequeue` at counts `n`, `n-1`, ..., `1`. -/
def drainCalls : Nat → List QCall
  | 0 => []
  | n + 1 => ⟨.deq, .tx, n + 1⟩ :: drainCalls n

/-- A queue call that respects the capacity-check-before-action rule: `enqueue`
below capacity, `dequeue` above zero. -/
def QCall.guarded (c : QCall) : Prop :=
  (c.op = .enq → c.count < MAXBUF) ∧ (c.op = .deq → 0 < c.count)

instance (c : QCall) : Decidable c.guarded := by
  unfold QCall.guarded; infer_instance

/-- States the driver can be in: after `ttyinit` on a state without history,
and then after any further `ttyinit`, interrupt, completed `ttyread` or
completed `ttywrite`, under any hardware model. -/
inductive Reachable (k : Config) : Driver → Prop
  | init (hw : Uart) (s0 : Driver) (dev : Nat) :
      s0.qcalls = [] → Reachable k (ttyinit k hw s0 dev)
  | reinit (hw : Uart) (s : Driver) (dev : Nat) :
      Reachable k s → Reachable k (ttyinit k hw s dev)
  | isr (s : Driver) (dev iirv rxv : Nat) :
      Reachable k s → Reachable k (irqinthandc k s dev iirv rxv)
  | read (s : Driver) (fuel dev : Nat) (buf : Nat → Nat) (nchar : Int)
      (r : Driver × (Nat → Nat) × Nat) :
      Reachable k s → ttyread fuel s dev buf nchar = some r → Reachable k r.1
  | write (hw : Uart) (s : Driver) (fuel dev : Nat) (buf : Nat → Nat) (nchar : Int)
      (r : Driver × Nat) :
      Reachable k s → ttywrite k hw fuel s dev buf nchar = some r → Reachable k r.1

/-- Line 0 of `sapc` right after `ttyinit`, echo enabled. -/
def fresh : Driver := ttyinit sapc noIrq boot 0

/-- The state after `n` receive interrupts for the byte `0x41` on line 0. -/
def received : Nat → Driver
  | 0 => fresh
  | n + 1 => irqinthandc sapc (received n) 0 0x04 0x41

/-- A state whose receive queue holds the byte `0x41` and whose transmit queue
holds `0x42`, `0x43`. -/
def busy : Driver :=
  { boot with RX_Queue := ⟨[0x41, 0, 0, 0, 0, 0], 6, 1, 0, 1⟩,
              TX_Queue := ⟨[0x42, 0x43, 0, 0, 0, 0], 6, 2, 0, 2⟩ }

/-- The five bytes of "HELLO" at the start of a zeroed buffer. -/
def hello : Nat → Nat := fun i => [0x48, 0x45, 0x4c, 0x4c, 0x4f].getD i 0

/-- The part of the capacity-check-before-action rule that every call site of
`tty.c` keeps: `dequeue` is called above zero and `enqueue` on the transmit
queue below the depth.  (It says nothing about `enqueue` on the receive
queue.) -/
def QCall.disciplined (c : QCall) : Prop :=
  (c.op = .deq → 0 < c.count) ∧ (c.op = .enq → c.q = .tx → c.count < MAXBUF)

/-- Invariant of the transmit side: the transmit queue is a well-formed queue
of depth `MAXBUF` and every recorded queue call was disciplined. -/
def Inv (s : Driver) : Prop :=
  s.TX_Queue.WF ∧ s.TX_Queue.max = MAXBUF ∧ ∀ c ∈ s.qcalls, c.disciplined

/-! ## Queue lemmas -/

theorem getD_set_same (l : List Nat) (i c : Nat) (h : i < l.length) :
    (l.set i c).getD i 0 = c := by
  simp [List.getD_eq_getElem?_getD, h]

theorem getD_set_other (l : List Nat) (i j c : Nat) (h : i ≠ j) :
    (l.set i c).getD j 0 = l.getD j 0 := by
  simp [List.getD_eq_getElem?_getD, List.getElem?_set_ne h]

theorem mod_shift_ne (o i n m : Nat) (hi : i < n) (hn : n < m) :
    (o + i) % m ≠ (o + n) % m := by
  intro h
  have h1 : (o + i) ≡ (o + n) [MOD m] := h
  have h2 : i ≡ n [MOD m] := Nat.ModEq.add_left_cancel' o h1
  have h3 : i % m = n % m := h2
  rw [Nat.mod_eq_of_lt (by omega), Nat.mod_eq_of_lt hn] at h3
  omega

theorem enqueue_spec (q : Queue) (c : Nat) (h : q.WF) (hn : q.num < q.max) :
    (enqueue q c).WF ∧ (enqueue q c).toList = q.toList ++ [c] ∧
      (enqueue q c).num = q.num + 1 ∧ (enqueue q c).max = q.max := by
  obtain ⟨hlen, hpos, hout, hnum, hin⟩ := h
  have hinlt : q.inIdx < q.max := by rw [hin]; exact Nat.mod_lt _ hpos
  refine ⟨?_, ?_, ?_, ?_⟩
  · simp only [enqueue, Queue.WF, List.length_set]
    refine ⟨hlen, hpos, hout, hn, ?_⟩
    rw [hin, Nat.mod_add_mod, Nat.add_assoc]
  · simp only [enqueue, Queue.toList, List.range_succ, List.map_append, List.map_cons,
      List.map_nil]
    congr 1
    · apply List.map_congr_left
      intro i hi
      rw [List.mem_range] at hi
      apply getD_set_other
      rw [hin]
      exact (mod_shift_ne q.outIdx i q.num q.max hi hn).symm
    · rw [← hin, getD_set_same _ _ _ (by omega)]
  · simp [enqueue]
  · simp [enqueue]

theorem dequeue_spec (q : Queue) (h : q.WF) (hn : q.num ≠ 0) :
    (dequeue q).2.WF ∧ q.toList = (dequeue q).1 :: (dequeue q).2.toList ∧
      (dequeue q).2.num + 1 = q.num ∧ (dequeue q).2.max = q.max := by
  obtain ⟨hlen, hpos, hout, hnum, hin⟩ := h
  have hd : dequeue q = (q.store.getD q.outIdx 0,
      { q with outIdx := (q.outIdx + 1) % q.max, num := q.num - 1 }) := by
    simp [dequeue, hn]
  rw [hd]
  refine ⟨?_, ?_, ?_, ?_⟩
  · refine ⟨hlen, hpos, Nat.mod_lt _ hpos, ?_, ?_⟩
    · show q.num - 1 ≤ q.max
      omega
    · show q.inIdx = ((q.outIdx + 1) % q.max + (q.num - 1)) % q.max
      rw [hin, Nat.mod_add_mod]
      congr 1
      omega
  · obtain ⟨n, hn1⟩ : ∃ n, q.num = n + 1 := ⟨q.num - 1, by omega⟩
    simp only [Queue.toList, hn1, List.range_succ_eq_map, List.map_cons,
      List.map_map, Nat.add_zero, Nat.mod_eq_of_lt hout, Nat.add_sub_cancel]
    congr 1
    apply List.map_congr_left
    intro i _
    simp only [Function.comp, Nat.mod_add_mod]
    congr 2
    omega
  · show q.num - 1 + 1 = q.num
    omega
  · rfl

theorem init_queue_spec (q : Queue) (m : Nat) (hm : 0 < m) :
    (init_queue q m).WF ∧ (init_queue q m).toList = [] ∧ (init_queue q m).num = 0 ∧
      (init_queue q m).max = m := by
  simp [init_queue, Queue.WF, Queue.toList, hm]

theorem toList_length (q : Queue) : q.toList.length = q.num := by
  simp [Queue.toList]

theorem toList_of_num_zero (q : Queue) (h : q.num = 0) : q.toList = [] := by
  simp [Queue.toList, h]

/-! ## The interrupt handler, branch by branch -/

theorem txdrain_spec (k : Config) (baseport : Nat) :
    ∀ (n : Nat) (s : Driver), s.TX_Queue.num = n → s.TX_Queue.WF →
      (txdrain k baseport s).trace =
          s.trace ++ s.TX_Queue.toList.map (fun c => Event.outpt (baseport + k.UART_TX) c) ∧
        (txdrain k baseport s).TX_Queue.num = 0 ∧
        (txdrain k baseport s).TX_Queue.WF ∧
        (txdrain k baseport s).TX_Queue.max = s.TX_Queue.max ∧
        (txdrain k baseport s).RX_Queue = s.RX_Queue ∧
        (txdrain k baseport s).ttytab = s.ttytab ∧
        (txdrain k baseport s).debug_record = s.debug_record ∧
        (txdrain k baseport s).qcalls = s.qcalls ++ drainCalls n := by
  intro n
  induction n with
  | zero =>
    intro s hn hwf
    rw [txdrain]
    simp [queuecount, hn, Queue.toList, drainCalls, hwf]
  | succ n ih =>
    intro s hn hwf
    have hne : s.TX_Queue.num ≠ 0 := by omega
    obtain ⟨hwf1, hlist, hnum, hmax⟩ := dequeue_spec s.TX_Queue hwf hne
    rw [txdrain]
    simp only [queuecount, ne_eq, hne, not_false_eq_true, if_true]
    obtain ⟨h1, h2, h3, h4, h5, h6, h7, h8⟩ :=
      ih (emit (tx_dequeue s).2 (.outpt (baseport + k.UART_TX) (tx_dequeue s).1))
        (by simp only [emit, tx_dequeue]; omega) (by simpa [emit, tx_dequeue] using hwf1)
    refine ⟨?_, h2, h3, ?_, ?_, ?_, ?_, ?_⟩
    · rw [h1, hlist]
      simp [emit, tx_dequeue]
    · rw [h4]; simpa [emit, tx_dequeue] using hmax
    · rw [h5]; simp [emit, tx_dequeue]
    · rw [h6]; simp [emit, tx_dequeue]
    · rw [h7]; simp [emit, tx_dequeue]
    · rw [h8]; simp [emit, tx_dequeue, drainCalls, queuecount, hn]

theorem irq_rdi (k : Config) (s : Driver) (dev iirv rxv : Nat)
    (h : iirv &&& k.UART_IIR_ID = k.UART_IIR_RDI) :
    irqinthandc k s dev iirv rxv =
      txdrain k (k.devtab dev).dvbaseport
        (emit (rx_enqueue (emit (emit (emit s (.inpt ((k.devtab dev).dvbaseport + k.UART_IIR)))
          .pic_end_int) (.inpt ((k.devtab dev).dvbaseport + k.UART_RX))) rxv) .pic_end_int) := by
  unfold irqinthandc
  simp only [if_pos h, caseRDI, caseTHRI]

theorem irq_thri (k : Config) (s : Driver) (dev iirv rxv : Nat)
    (h1 : iirv &&& k.UART_IIR_ID ≠ k.UART_IIR_RDI)
    (h2 : iirv &&& k.UART_IIR_ID = k.UART_IIR_THRI) :
    irqinthandc k s dev iirv rxv =
      txdrain k (k.devtab dev).dvbaseport
        (emit (emit s (.inpt ((k.devtab dev).dvbaseport + k.UART_IIR))) .pic_end_int) := by
  unfold irqinthandc
  simp only [if_neg h1, if_pos h2, caseTHRI]

theorem irq_other (k : Config) (s : Driver) (dev iirv rxv : Nat)
    (h1 : iirv &&& k.UART_IIR_ID ≠ k.UART_IIR_RDI)
    (h2 : iirv &&& k.UART_IIR_ID ≠ k.UART_IIR_THRI) :
    irqinthandc k s dev iirv rxv = emit s (.inpt ((k.devtab dev).dvbaseport + k.UART_IIR)) := by
  unfold irqinthandc
  simp only [if_neg h1, if_neg h2]

theorem isr_rdi_effect (k : Config) (s : Driver) (dev iirv b : Nat)
    (hid : iirv &&& k.UART_IIR_ID = k.UART_IIR_RDI)
    (hrx : s.RX_Queue.WF) (hroom : s.RX_Queue.num < s.RX_Queue.max) (htx : s.TX_Queue.WF) :
    (irqinthandc k s dev iirv b).trace =
        s.trace ++ [Event.inpt ((k.devtab dev).dvbaseport + k.UART_IIR), Event.pic_end_int,
            Event.inpt ((k.devtab dev).dvbaseport + k.UART_RX), Event.pic_end_int] ++
          s.TX_Queue.toList.map (fun c => Event.outpt ((k.devtab dev).dvbaseport + k.UART_TX) c) ∧
      (irqinthandc k s dev iirv b).RX_Queue.toList = s.RX_Queue.toList ++ [b] ∧
      (irqinthandc k s dev iirv b).TX_Queue.toList = [] ∧
      (irqinthandc k s dev iirv b).ttytab = s.ttytab := by
  rw [irq_rdi k s dev iirv b hid]
  obtain ⟨h1, h2, _, _, h5, h6, _, _⟩ := txdrain_spec k (k.devtab dev).dvbaseport _
    (emit (rx_enqueue (emit (emit (emit s (.inpt ((k.devtab dev).dvbaseport + k.UART_IIR)))
      .pic_end_int) (.inpt ((k.devtab dev).dvbaseport + k.UART_RX))) b) .pic_end_int) rfl
    (by simpa [emit, rx_enqueue] using htx)
  refine ⟨?_, ?_, toList_of_num_zero _ h2, ?_⟩
  · rw [h1]; simp [emit, rx_enqueue]
  · rw [h5]
    simpa [emit, rx_enqueue] using (enqueue_spec s.RX_Queue b hrx hroom).2.1
  · rw [h6]; simp [emit, rx_enqueue]

theorem isr_thri_effect (k : Config) (s : Driver) (dev iirv rxv : Nat)
    (hne : k.UART_IIR_RDI ≠ k.UART_IIR_THRI)
    (hid : iirv &&& k.UART_IIR_ID = k.UART_IIR_THRI) (htx : s.TX_Queue.WF) :
    (irqinthandc k s dev iirv rxv).trace =
        s.trace ++ [Event.inpt ((k.devtab dev).dvbaseport + k.UART_IIR), Event.pic_end_int] ++
          s.TX_Queue.toList.map (fun c => Event.outpt ((k.devtab dev).dvbaseport + k.UART_TX) c) ∧
      (irqinthandc k s dev iirv rxv).TX_Queue.num = 0 ∧
      (irqinthandc k s dev iirv rxv).TX_Queue.WF ∧
      (irqinthandc k s dev iirv rxv).TX_Queue.max = s.TX_Queue.max ∧
      (irqinthandc k s dev iirv rxv).RX_Queue = s.RX_Queue ∧
      (irqinthandc k s dev iirv rxv).ttytab = s.ttytab := by
  have h1 : iirv &&& k.UART_IIR_ID ≠ k.UART_IIR_RDI := by
    rw [hid]; exact fun h => hne h.symm
  rw [irq_thri k s dev iirv rxv h1 hid]
  obtain ⟨g1, g2, g3, g4, g5, g6, _, _⟩ := txdrain_spec k (k.devtab dev).dvbaseport _
    (emit (emit s (.inpt ((k.devtab dev).dvbaseport + k.UART_IIR))) .pic_end_int) rfl
    (by simpa [emit] using htx)
  refine ⟨?_, g2, g3, ?_, ?_, ?_⟩
  · rw [g1]; simp [emit]
  · rw [g4]; simp [emit]
  · rw [g5]; simp [emit]
  · rw [g6]; simp [emit]

/-! ## Claims about `ttycontrol`, `ttyinit` and the interrupt handler -/

/-- C1: `ttycontrol` returns a negative value (-1) exactly when the function
code is not `ECHOCONTROL`, and then the whole driver state is unchanged; for
`ECHOCONTROL` it returns 0 and stores `val` in the echo flag of the line,
changing nothing else; switching echo off and then on leaves the flag at 1. -/
theorem ttycontrol_spec (k : Config) (s : Driver) (dev : Nat) (fncode val : Int) :
    ((ttycontrol k s dev fncode val).2 < 0 ↔ fncode ≠ k.ECHOCONTROL) ∧
      (fncode ≠ k.ECHOCONTROL → ttycontrol k s dev fncode val = (s, -1)) ∧
      (fncode = k.ECHOCONTROL →
        (ttycontrol k s dev fncode val).2 = 0 ∧
        ((ttycontrol k s dev fncode val).1.ttytab (k.devtab dev).dvdata).echoflag = val ∧
        (ttycontrol k s dev fncode val).1 =
          { s with
            ttytab := Function.update s.ttytab (k.devtab dev).dvdata
                { s.ttytab (k.devtab dev).dvdata with echoflag := val } }) ∧
      ((ttycontrol k (ttycontrol k s dev k.ECHOCONTROL 0).1 dev k.ECHOCONTROL 1).1.ttytab
          (k.devtab dev).dvdata).echoflag = 1 := by
  refine ⟨?_, ?_, ?_, ?_⟩
  · by_cases h : fncode = k.ECHOCONTROL <;> simp [ttycontrol, h]
  · intro h; simp [ttycontrol, h]
  · intro h; simp [ttycontrol, h]
  · simp [ttycontrol]

/-- C1 at a concrete input: function code 7 on line 0 of `sapc` fails and
leaves the state as it was. -/
theorem ttycontrol_spec_witness : ttycontrol sapc busy 0 7 1 = (busy, -1) :=
  (ttycontrol_spec sapc busy 0 7 1).2.1 (by decide)

/-- C8: when the masked identification field is neither receive-data nor
transmit-holding-empty, the handler only reads the interrupt-identification
register: the resulting state is the old one with that single read appended to
the trace (no port write, no read of the receive register, no `pic_end_int`,
queues and line blocks untouched, whatever the echo flag). -/
theorem isr_other_ignored (k : Config) (s : Driver) (dev iirv rxv : Nat)
    (h1 : iirv &&& k.UART_IIR_ID ≠ k.UART_IIR_RDI)
    (h2 : iirv &&& k.UART_IIR_ID ≠ k.UART_IIR_THRI) :
    irqinthandc k s dev iirv rxv =
      { s with trace := s.trace ++ [Event.inpt ((k.devtab dev).dvbaseport + k.UART_IIR)] } :=
  irq_other k s dev iirv rxv h1 h2

/-- C8 at a concrete input: identification value 0x01 (no interrupt pending)
on line 0 of `sapc`. -/
theorem isr_other_ignored_witness :
    (0x01 &&& sapc.UART_IIR_ID ≠ sapc.UART_IIR_RDI ∧
      0x01 &&& sapc.UART_IIR_ID ≠ sapc.UART_IIR_THRI) ∧
    irqinthandc sapc busy 0 0x01 0x41 =
      { busy with trace := busy.trace ++ [Event.inpt 0x3fa] } :=
  ⟨by decide, isr_other_ignored sapc busy 0 0x01 0x41 (by decide) (by decide)⟩

/-- C7: on a transmit-holding-empty interrupt the handler (a total function:
its drain loop terminates) reads only the interrupt-identification register,
acknowledges the controller once, writes the queued transmit bytes to the
transmit-data register once each in FIFO order, leaves the transmit queue
empty and does not touch the receive queue or the line blocks. -/
theorem isr_transmit_drains (k : Config) (s : Driver) (dev iirv rxv : Nat)
    (hne : k.UART_IIR_RDI ≠ k.UART_IIR_THRI)
    (hid : iirv &&& k.UART_IIR_ID = k.UART_IIR_THRI) (htx : s.TX_Queue.WF) :
    (irqinthandc k s dev iirv rxv).trace =
        s.trace ++ [Event.inpt ((k.devtab dev).dvbaseport + k.UART_IIR), Event.pic_end_int] ++
          s.TX_Queue.toList.map (fun c => Event.outpt ((k.devtab dev).dvbaseport + k.UART_TX) c) ∧
      (irqinthandc k s dev iirv rxv).TX_Queue.num = 0 ∧
      (irqinthandc k s dev iirv rxv).TX_Queue.toList = [] ∧
      (irqinthandc k s dev iirv rxv).RX_Queue = s.RX_Queue ∧
      (irqinthandc k s dev iirv rxv).ttytab = s.ttytab := by
  obtain ⟨g1, g2, _, _, g5, g6⟩ := isr_thri_effect k s dev iirv rxv hne hid htx
  exact ⟨g1, g2, toList_of_num_zero _ g2, g5, g6⟩

/-- C7 at a concrete input: identification 0x02 on line 0 of `sapc` with the
bytes 0x42, 0x43 queued for transmission. -/
theorem isr_transmit_drains_witness :
    (sapc.UART_IIR_RDI ≠ sapc.UART_IIR_THRI ∧ 0x02 &&& sapc.UART_IIR_ID = sapc.UART_IIR_THRI ∧
      busy.TX_Queue.WF) ∧
    ((irqinthandc sapc busy 0 0x02 0).trace =
        busy.trace ++ [Event.inpt (0x3f8 + 2), Event.pic_end_int] ++
          busy.TX_Queue.toList.map (fun c => Event.outpt (0x3f8 + 0) c) ∧
      (irqinthandc sapc busy 0 0x02 0).TX_Queue.num = 0 ∧
      (irqinthandc sapc busy 0 0x02 0).TX_Queue.toList = [] ∧
      (irqinthandc sapc busy 0 0x02 0).RX_Queue = busy.RX_Queue ∧
      (irqinthandc sapc busy 0 0x02 0).ttytab = busy.ttytab) :=
  ⟨by decide, isr_transmit_drains sapc busy 0 0x02 0 (by decide) (by decide) (by decide)⟩

/-- C6: with the echo flag clear, a receive-data interrupt for byte `b` on a
non-full receive queue reads the receive register once, appends `b` to the
receive queue, and then drains the transmit queue in the same invocation: the
values written to the transmit-data register are the queued transmit bytes in
FIFO order and nothing else. -/
theorem isr_receive_then_drain (k : Config) (s : Driver) (dev iirv b : Nat)
    (_hecho : (s.ttytab (k.devtab dev).dvdata).echoflag = 0)
    (hid : iirv &&& k.UART_IIR_ID = k.UART_IIR_RDI)
    (hrx : s.RX_Queue.WF) (hroom : s.RX_Queue.num < s.RX_Queue.max) (htx : s.TX_Queue.WF) :
    (irqinthandc k s dev iirv b).trace =
        s.trace ++ [Event.inpt ((k.devtab dev).dvbaseport + k.UART_IIR), Event.pic_end_int,
            Event.inpt ((k.devtab dev).dvbaseport + k.UART_RX), Event.pic_end_int] ++
          s.TX_Queue.toList.map (fun c => Event.outpt ((k.devtab dev).dvbaseport + k.UART_TX) c) ∧
      (irqinthandc k s dev iirv b).RX_Queue.toList = s.RX_Queue.toList ++ [b] ∧
      (irqinthandc k s dev iirv b).TX_Queue.toList = [] ∧
      (irqinthandc k s dev iirv b).ttytab = s.ttytab :=
  isr_rdi_effect k s dev iirv b hid hrx hroom htx

/-- C6 at a concrete input: byte 0x44 arrives on line 0 of `sapc` (echo flag 0
in `busy`) while 0x42, 0x43 wait in the transmit queue. -/
theorem isr_receive_then_drain_witness :
    ((busy.ttytab (sapc.devtab 0).dvdata).echoflag = 0 ∧
      0x04 &&& sapc.UART_IIR_ID = sapc.UART_IIR_RDI ∧ busy.RX_Queue.WF ∧
      busy.RX_Queue.num < busy.RX_Queue.max ∧ busy.TX_Queue.WF) ∧
    ((irqinthandc sapc busy 0 0x04 0x44).trace =
        busy.trace ++ [Event.inpt (0x3f8 + 2), Event.pic_end_int,
            Event.inpt (0x3f8 + 0), Event.pic_end_int] ++
          busy.TX_Queue.toList.map (fun c => Event.outpt (0x3f8 + 0) c) ∧
      (irqinthandc sapc busy 0 0x04 0x44).RX_Queue.toList = busy.RX_Queue.toList ++ [0x44] ∧
      (irqinthandc sapc busy 0 0x04 0x44).TX_Queue.toList = [] ∧
      (irqinthandc sapc busy 0 0x04 0x44).ttytab = busy.ttytab) :=
  ⟨by decide, isr_receive_then_drain sapc busy 0 0x04 0x44 (by decide) (by decide) (by decide)
    (by decide) (by decide)⟩

/-- C5 (the code departs from the claim): line 0 of `sapc` right after
`ttyinit` has its echo flag set; a receive-data interrupt for byte 0x41
enqueues the byte, but the handler leaves through `default: return;` and the
trace holds no write to the transmit-data register at all, so there is no echo. -/
theorem isr_receive_echo_missing :
    (fresh.ttytab (sapc.devtab 0).dvdata).echoflag = 1 ∧
      (irqinthandc sapc fresh 0 0x04 0x41).RX_Queue.toList = [0x41] ∧
      (irqinthandc sapc fresh 0 0x04 0x41).trace =
        fresh.trace ++ [Event.inpt 0x3fa, Event.pic_end_int, Event.inpt 0x3f8,
          Event.pic_end_int] ∧
      txBytes sapc 0x3f8 [Event.inpt 0x3fa, Event.pic_end_int, Event.inpt 0x3f8,
          Event.pic_end_int] = [] := by
  obtain ⟨h1, h2, _, _⟩ := isr_rdi_effect sapc fresh 0 0x04 0x41 (by decide) (by decide)
    (by decide) (by decide)
  refine ⟨by decide, ?_, ?_, by decide⟩
  · rw [h2]; decide
  · rw [h1]; decide


theorem outpt_noIrq (k : Config) (s : Driver) (port val : Nat) :
    outpt k noIrq s port val = emit s (.outpt port val) := rfl

/-- C9 (amended): without interrupts, `ttyinit` on a line whose base port is
`COM1_BASE` installs `irq4inthand` for `COM1_IRQ`, on `COM2_BASE` installs
`irq3inthand` for `COM2_IRQ`, and in both cases enables the IRQ, sets the line
block to echo on with all six mirrors zero, leaves the other line blocks alone,
empties both queues and writes `UART_IER_RDI` to the interrupt-enable
register.  For any other base port it only reports the error: nothing is armed,
no port is written and every line block is as before, but both queues have
already been reset to empty queues of depth `MAXBUF`. -/
theorem ttyinit_spec (k : Config) (s : Driver) (dev : Nat) (hd : k.COM1_BASE ≠ k.COM2_BASE) :
    ((k.devtab dev).dvbaseport = k.COM1_BASE →
        (ttyinit k noIrq s dev).trace = s.trace ++
          [Event.set_intr_gate (k.COM1_IRQ + k.IRQ_TO_INT_N_SHIFT) Handler.irq4inthand,
           Event.pic_enable_irq k.COM1_IRQ,
           Event.outpt ((k.devtab dev).dvbaseport + k.UART_IER) k.UART_IER_RDI] ∧
        (ttyinit k noIrq s dev).ttytab (k.devtab dev).dvdata = ⟨1, 0, 0, 0, 0, 0, 0⟩ ∧
        (∀ j, j ≠ (k.devtab dev).dvdata → (ttyinit k noIrq s dev).ttytab j = s.ttytab j) ∧
        (ttyinit k noIrq s dev).RX_Queue.toList = [] ∧
        (ttyinit k noIrq s dev).TX_Queue.toList = []) ∧
      ((k.devtab dev).dvbaseport = k.COM2_BASE →
        (ttyinit k noIrq s dev).trace = s.trace ++
          [Event.set_intr_gate (k.COM2_IRQ + k.IRQ_TO_INT_N_SHIFT) Handler.irq3inthand,
           Event.pic_enable_irq k.COM2_IRQ,
           Event.outpt ((k.devtab dev).dvbaseport + k.UART_IER) k.UART_IER_RDI] ∧
        (ttyinit k noIrq s dev).ttytab (k.devtab dev).dvdata = ⟨1, 0, 0, 0, 0, 0, 0⟩ ∧
        (∀ j, j ≠ (k.devtab dev).dvdata → (ttyinit k noIrq s dev).ttytab j = s.ttytab j) ∧
        (ttyinit k noIrq s dev).RX_Queue.toList = [] ∧
        (ttyinit k noIrq s dev).TX_Queue.toList = []) ∧
      ((k.devtab dev).dvbaseport ≠ k.COM1_BASE → (k.devtab dev).dvbaseport ≠ k.COM2_BASE →
        (ttyinit k noIrq s dev).trace = s.trace ++ [Event.kprintf dev] ∧
        (ttyinit k noIrq s dev).ttytab = s.ttytab ∧
        (ttyinit k noIrq s dev).RX_Queue = init_queue s.RX_Queue MAXBUF ∧
        (ttyinit k noIrq s dev).TX_Queue = init_queue s.TX_Queue MAXBUF ∧
        (ttyinit k noIrq s dev).RX_Queue.toList = [] ∧
        (ttyinit k noIrq s dev).TX_Queue.toList = []) := by
  refine ⟨?_, ?_, ?_⟩
  · intro h
    simp only [ttyinit, if_pos h, outpt_noIrq, emit]
    refine ⟨by simp, by simp, ?_, by simp [init_queue, Queue.toList],
      by simp [init_queue, Queue.toList]⟩
    intro j hj
    simp [Function.update, hj]
  · intro h
    have h1 : (k.devtab dev).dvbaseport ≠ k.COM1_BASE := by rw [h]; exact fun e => hd e.symm
    simp only [ttyinit, if_neg h1, if_pos h, outpt_noIrq, emit]
    refine ⟨by simp, by simp, ?_, by simp [init_queue, Queue.toList],
      by simp [init_queue, Queue.toList]⟩
    intro j hj
    simp [Function.update, hj]
  · intro h1 h2
    simp only [ttyinit, if_neg h1, if_neg h2, emit]
    simp [init_queue, Queue.toList]

/-- C9 at concrete inputs: device 1 of `sapc` sits at `COM2_BASE`. -/
theorem ttyinit_spec_witness :
    sapc.COM1_BASE ≠ sapc.COM2_BASE ∧ (sapc.devtab 1).dvbaseport = sapc.COM2_BASE ∧
      (ttyinit sapc noIrq busy 1).trace = busy.trace ++
          [Event.set_intr_gate (3 + 0x20) Handler.irq3inthand, Event.pic_enable_irq 3,
           Event.outpt (0x2f8 + 1) 0x01] ∧
        (ttyinit sapc noIrq busy 1).ttytab 1 = ⟨1, 0, 0, 0, 0, 0, 0⟩ ∧
        (∀ j, j ≠ 1 → (ttyinit sapc noIrq busy 1).ttytab j = busy.ttytab j) ∧
        (ttyinit sapc noIrq busy 1).RX_Queue.toList = [] ∧
        (ttyinit sapc noIrq busy 1).TX_Queue.toList = [] :=
  ⟨by decide, by decide, (ttyinit_spec sapc busy 1 (by decide)).2.1 (by decide)⟩

/-- C9 as stated fails: device 2 of `sapc` has the unrecognised base port 0;
`ttyinit` on it turns a receive queue holding 0x41 and a transmit queue holding
0x42, 0x43 into empty queues, so the queues are not left as they were. -/
theorem ttyinit_bad_port_resets_queues :
    (sapc.devtab 2).dvbaseport ≠ sapc.COM1_BASE ∧ (sapc.devtab 2).dvbaseport ≠ sapc.COM2_BASE ∧
      busy.RX_Queue.toList = [0x41] ∧ busy.TX_Queue.toList = [0x42, 0x43] ∧
      (ttyinit sapc noIrq busy 2).RX_Queue.toList = [] ∧
      (ttyinit sapc noIrq busy 2).TX_Queue.toList = [] ∧
      (ttyinit sapc noIrq busy 2).RX_Queue ≠ busy.RX_Queue ∧
      (ttyinit sapc noIrq busy 2).TX_Queue ≠ busy.TX_Queue := by
  decide


/-! ## `ttyread` -/

theorem ttyreadLoop_done (fuel : Nat) (s : Driver) (buf : Nat → Nat) (c : Nat) :
    ttyreadLoop fuel s buf 0 c = some (s, buf, c) := by
  unfold ttyreadLoop; simp

theorem ttyreadLoop_step (fuel : Nat) (s : Driver) (buf : Nat → Nat) (nchar : Int) (c : Nat)
    (h : nchar ≠ 0) (hq : 0 < s.RX_Queue.num) :
    ttyreadLoop (fuel + 1) s buf nchar c =
      ttyreadLoop fuel (rx_dequeue s).2 (Function.update buf c (rx_dequeue s).1) (nchar - 1)
        (c + 1) := by
  rw [ttyreadLoop]
  simp only [ne_eq, h, not_false_eq_true, if_true, queuecount, gt_iff_lt, hq]

theorem ttyreadLoop_spin (fuel : Nat) (s : Driver) (buf : Nat → Nat) (nchar : Int) (c : Nat)
    (h : nchar ≠ 0) (hq : s.RX_Queue.num = 0) :
    ttyreadLoop (fuel + 1) s buf nchar c = ttyreadLoop fuel s buf nchar c := by
  rw [ttyreadLoop]
  simp only [ne_eq, h, not_false_eq_true, if_true, queuecount, gt_iff_lt, hq, Nat.lt_irrefl,
    if_false]

theorem ttyreadLoop_spec :
    ∀ (n fuel : Nat) (s : Driver) (buf : Nat → Nat) (c : Nat),
      s.RX_Queue.WF → n ≤ s.RX_Queue.num → n ≤ fuel →
      ∃ s1 buf1, ttyreadLoop fuel s buf (n : Int) c = some (s1, buf1, c + n) ∧
        s.RX_Queue.toList = (List.range n).map (fun i => buf1 (c + i)) ++ s1.RX_Queue.toList ∧
        (∀ j, j < c ∨ c + n ≤ j → buf1 j = buf j) ∧
        s1.TX_Queue = s.TX_Queue ∧ s1.ttytab = s.ttytab ∧ s1.trace = s.trace ∧
        s1.debug_record = s.debug_record := by
  intro n
  induction n with
  | zero =>
    intro fuel s buf c _ _ _
    exact ⟨s, buf, by simpa using ttyreadLoop_done fuel s buf c, by simp, fun _ _ => rfl,
      rfl, rfl, rfl, rfl⟩
  | succ n ih =>
    intro fuel s buf c hwf hn hf
    obtain ⟨f, rfl⟩ : ∃ f, fuel = f + 1 := ⟨fuel - 1, by omega⟩
    have hpos : 0 < s.RX_Queue.num := by omega
    obtain ⟨hwf1, hlist, hnum, _⟩ := dequeue_spec s.RX_Queue hwf (by omega)
    obtain ⟨s1, buf1, hrun, hl, hframe, h3, h4, h5, h6⟩ :=
      ih f (rx_dequeue s).2 (Function.update buf c (rx_dequeue s).1) (c + 1)
        (by simpa [rx_dequeue] using hwf1) (by simp only [rx_dequeue]; omega) (by omega)
    refine ⟨s1, buf1, ?_, ?_, ?_, ?_, ?_, ?_, ?_⟩
    · rw [ttyreadLoop_step f s buf _ c (by push_cast; omega) hpos]
      have e : ((n + 1 : Nat) : Int) - 1 = (n : Int) := by push_cast; omega
      rw [e, hrun, Nat.add_assoc, Nat.add_comm 1 n]
    · have hc : buf1 c = (dequeue s.RX_Queue).1 := by
        rw [hframe c (Or.inl (Nat.lt_succ_self c))]
        simp [rx_dequeue]
      have hl1 : (dequeue s.RX_Queue).2.toList =
          (List.range n).map (fun i => buf1 (c + 1 + i)) ++ s1.RX_Queue.toList := by
        simpa [rx_dequeue] using hl
      rw [hlist, hl1, List.range_succ_eq_map, List.map_cons, List.map_map]
      have h0 : buf1 (c + 0) = (dequeue s.RX_Queue).1 := hc
      rw [h0, List.cons_append]
      congr 2
      apply List.map_congr_left
      intro i _
      show buf1 (c + 1 + i) = buf1 (c + (i + 1))
      congr 1
      omega
    · intro j hj
      rw [hframe j (by omega)]
      have : j ≠ c := by omega
      simp [Function.update, this]
    · rw [h3]; simp [rx_dequeue]
    · rw [h4]; simp [rx_dequeue]
    · rw [h5]; simp [rx_dequeue]
    · rw [h6]; simp [rx_dequeue]

theorem append_split {α : Type} (l a b : List α) (n : Nat) (h : l = a ++ b)
    (ha : a.length = n) : l.take n = a ∧ l.drop n = b := by
  subst h; subst ha
  simp

/-- C2: `ttyread` with `nchar = 0` returns 0 at once, with state and buffer
untouched.  For `n` not above the number of bytes waiting in a well-formed
receive queue, any iteration bound `fuel ≥ n` suffices for `ttyread` to return
`n`: `buf[0..n)` then holds the `n` oldest queued bytes in FIFO order, the rest
of the buffer is as before, the queue holds the remaining bytes in order, and
nothing else in the driver changes. -/
theorem ttyread_spec (s : Driver) (dev : Nat) (buf : Nat → Nat) :
    (∀ fuel, ttyread fuel s dev buf 0 = some (s, buf, 0)) ∧
      ∀ (n fuel : Nat), s.RX_Queue.WF → n ≤ s.RX_Queue.num → n ≤ fuel →
        ∃ s1 buf1, ttyread fuel s dev buf (n : Int) = some (s1, buf1, n) ∧
          (List.range n).map buf1 = s.RX_Queue.toList.take n ∧
          s1.RX_Queue.toList = s.RX_Queue.toList.drop n ∧
          (∀ j, n ≤ j → buf1 j = buf j) ∧
          s1.TX_Queue = s.TX_Queue ∧ s1.ttytab = s.ttytab ∧ s1.trace = s.trace := by
  refine ⟨fun fuel => ttyreadLoop_done fuel s buf 0, ?_⟩
  intro n fuel hwf hn hf
  obtain ⟨s1, buf1, hrun, hl, hframe, h3, h4, h5, _⟩ := ttyreadLoop_spec n fuel s buf 0 hwf hn hf
  have hl1 : s.RX_Queue.toList = (List.range n).map buf1 ++ s1.RX_Queue.toList := by
    simpa using hl
  obtain ⟨ht, hdrop⟩ := append_split _ _ _ n hl1 (by simp)
  refine ⟨s1, buf1, by simpa [ttyread] using hrun, ht.symm, hdrop.symm, ?_, h3, h4, h5⟩
  intro j hj
  exact hframe j (Or.inr (by omega))

/-- C2 at a concrete input: reading the one byte waiting in `busy`. -/
theorem ttyread_spec_witness :
    (busy.RX_Queue.WF ∧ 1 ≤ busy.RX_Queue.num) ∧
      ∃ s1 buf1, ttyread 1 busy 0 hello ((1 : Nat) : Int) = some (s1, buf1, 1) ∧
        (List.range 1).map buf1 = busy.RX_Queue.toList.take 1 ∧
        s1.RX_Queue.toList = busy.RX_Queue.toList.drop 1 ∧
        (∀ j, 1 ≤ j → buf1 j = hello j) ∧
        s1.TX_Queue = busy.TX_Queue ∧ s1.ttytab = busy.ttytab ∧ s1.trace = busy.trace :=
  ⟨by decide, (ttyread_spec busy 0 hello).2 1 1 (by decide) (by decide) (by decide)⟩


/-! ## `ttywrite` -/

theorem ttywriteLoop_done (k : Config) (hw : Uart) (baseport : Nat) (buf : Nat → Nat)
    (fuel : Nat) (s : Driver) (c : Nat) :
    ttywriteLoop k hw baseport buf fuel s 0 c = some (s, c) := by
  unfold ttywriteLoop; simp

theorem ttywriteLoop_full (k : Config) (hw : Uart) (baseport : Nat) (buf : Nat → Nat)
    (fuel : Nat) (s : Driver) (nchar : Int) (c : Nat)
    (h : nchar ≠ 0) (hq : s.TX_Queue.num = MAXBUF) :
    ttywriteLoop k hw baseport buf (fuel + 1) s nchar c =
      ttywriteLoop k hw baseport buf fuel (kick k hw s baseport) nchar c := by
  rw [ttywriteLoop]
  simp only [ne_eq, h, not_false_eq_true, if_true, queuecount, hq]

theorem ttywriteLoop_room (k : Config) (hw : Uart) (baseport : Nat) (buf : Nat → Nat)
    (fuel : Nat) (s : Driver) (nchar : Int) (c : Nat)
    (h : nchar ≠ 0) (hq : s.TX_Queue.num ≠ MAXBUF) :
    ttywriteLoop k hw baseport buf (fuel + 1) s nchar c =
      ttywriteLoop k hw baseport buf fuel (tx_enqueue s (buf c)) (nchar - 1) (c + 1) := by
  rw [ttywriteLoop]
  simp only [ne_eq, h, not_false_eq_true, if_true, queuecount, hq, if_false]

theorem range_shift (buf : Nat → Nat) (c n : Nat) :
    (List.range (n + 1)).map (fun i => buf (c + i)) =
      buf c :: (List.range n).map (fun i => buf (c + 1 + i)) := by
  rw [List.range_succ_eq_map, List.map_cons, List.map_map]
  congr 1
  apply List.map_congr_left
  intro i _
  show buf (c + (i + 1)) = buf (c + 1 + i)
  congr 1
  omega

theorem ttywriteLoop_noIrq :
    ∀ (n : Nat) (k : Config) (baseport : Nat) (buf : Nat → Nat) (fuel : Nat) (s : Driver)
      (c : Nat),
      s.TX_Queue.WF → s.TX_Queue.max = MAXBUF → s.TX_Queue.num + n ≤ MAXBUF → n ≤ fuel →
      ∃ s1, ttywriteLoop k noIrq baseport buf fuel s (n : Int) c = some (s1, c + n) ∧
        s1.TX_Queue.toList = s.TX_Queue.toList ++ (List.range n).map (fun i => buf (c + i)) ∧
        s1.trace = s.trace ∧ s1.RX_Queue = s.RX_Queue ∧ s1.ttytab = s.ttytab := by
  intro n
  induction n with
  | zero =>
    intro k baseport buf fuel s c _ _ _ _
    exact ⟨s, by simpa using ttywriteLoop_done k noIrq baseport buf fuel s c, by simp, rfl, rfl,
      rfl⟩
  | succ n ih =>
    intro k baseport buf fuel s c hwf hmax hroom hf
    obtain ⟨f, rfl⟩ : ∃ f, fuel = f + 1 := ⟨fuel - 1, by omega⟩
    have hlt : s.TX_Queue.num < s.TX_Queue.max := by omega
    obtain ⟨hwf1, hlist, hnum, hmax1⟩ := enqueue_spec s.TX_Queue (buf c) hwf hlt
    obtain ⟨s1, hrun, hl, h2, h3, h4⟩ := ih k baseport buf f (tx_enqueue s (buf c)) (c + 1)
      (by simpa [tx_enqueue] using hwf1) (by simp only [tx_enqueue]; omega)
      (by simp only [tx_enqueue]; omega) (by omega)
    refine ⟨s1, ?_, ?_, ?_, ?_, ?_⟩
    · rw [ttywriteLoop_room k noIrq baseport buf f s _ c (by push_cast; omega) (by omega)]
      have e : ((n + 1 : Nat) : Int) - 1 = (n : Int) := by push_cast; omega
      rw [e, hrun, Nat.add_assoc, Nat.add_comm 1 n]
    · rw [hl, range_shift]
      simp only [tx_enqueue, hlist, List.append_assoc, List.singleton_append]
    · rw [h2]; simp [tx_enqueue]
    · rw [h3]; simp [tx_enqueue]
    · rw [h4]; simp [tx_enqueue]

/-- C4: when the transmit queue (depth `MAXBUF` = 6) has room for all `n`
bytes and no interrupt occurs, any iteration bound `fuel ≥ n` suffices for
`ttywrite` to return `n`; the bytes `buf[0..n)` are appended to the transmit
queue in order, and the only external calls of the whole run are the three
writes to the interrupt-enable register after the loop: `UART_IER_THRI`, 0,
`UART_IER_RDI` (so the full-queue branch was never taken). -/
theorem ttywrite_fits (k : Config) (s : Driver) (dev : Nat) (buf : Nat → Nat) (n fuel : Nat)
    (hT : k.UART_IER_THRI ≠ 0) (hwf : s.TX_Queue.WF) (hmax : s.TX_Queue.max = MAXBUF)
    (hroom : s.TX_Queue.num + n ≤ MAXBUF) (hf : n ≤ fuel) :
    ∃ s1, ttywrite k noIrq fuel s dev buf (n : Int) = some (s1, n) ∧
      s1.trace = s.trace ++
        [Event.outpt ((k.devtab dev).dvbaseport + k.UART_IER) k.UART_IER_THRI,
         Event.outpt ((k.devtab dev).dvbaseport + k.UART_IER) 0,
         Event.outpt ((k.devtab dev).dvbaseport + k.UART_IER) k.UART_IER_RDI] ∧
      s1.TX_Queue.toList = s.TX_Queue.toList ++ (List.range n).map buf ∧
      s1.RX_Queue = s.RX_Queue ∧ s1.ttytab = s.ttytab := by
  obtain ⟨s1, hrun, hl, h2, h3, h4⟩ :=
    ttywriteLoop_noIrq n k (k.devtab dev).dvbaseport buf fuel s 0 hwf hmax hroom hf
  refine ⟨kick k noIrq s1 (k.devtab dev).dvbaseport, ?_, ?_, ?_, ?_, ?_⟩
  · simp only [ttywrite, hrun, Nat.zero_add]
  · simp [kick, outpt_noIrq, emit, h2, lnot, hT]
  · simpa [kick, outpt_noIrq, emit] using hl
  · simpa [kick, outpt_noIrq, emit] using h3
  · simpa [kick, outpt_noIrq, emit] using h4

/-- C4 at a concrete input: the five bytes of "HELLO" into the empty transmit
queue of a freshly initialised line 0 of `sapc`. -/
theorem ttywrite_fits_witness :
    (sapc.UART_IER_THRI ≠ 0 ∧ fresh.TX_Queue.WF ∧ fresh.TX_Queue.max = MAXBUF ∧
      fresh.TX_Queue.num + 5 ≤ MAXBUF) ∧
    ∃ s1, ttywrite sapc noIrq 5 fresh 0 hello ((5 : Nat) : Int) = some (s1, 5) ∧
      s1.trace = fresh.trace ++
        [Event.outpt (0x3f8 + 1) 0x02, Event.outpt (0x3f8 + 1) 0, Event.outpt (0x3f8 + 1) 0x01] ∧
      s1.TX_Queue.toList = fresh.TX_Queue.toList ++ (List.range 5).map hello ∧
      s1.RX_Queue = fresh.RX_Queue ∧ s1.ttytab = fresh.ttytab :=
  ⟨by decide, ttywrite_fits sapc fresh 0 hello 5 5 (by decide) (by decide) (by decide)
    (by decide) (by decide)⟩


theorem txBytes_append (k : Config) (baseport : Nat) (a b : List Event) :
    txBytes k baseport (a ++ b) = txBytes k baseport a ++ txBytes k baseport b := by
  simp [txBytes, List.filterMap_append]

theorem txBytes_outpts (k : Config) (baseport : Nat) (l : List Nat) :
    txBytes k baseport (l.map (fun c => Event.outpt (baseport + k.UART_TX) c)) = l := by
  induction l with
  | nil => rfl
  | cons a l ih =>
    have : txBytes k baseport (List.map (fun c => Event.outpt (baseport + k.UART_TX) c) (a :: l))
        = a :: txBytes k baseport (List.map (fun c => Event.outpt (baseport + k.UART_TX) c) l) := by
      simp [txBytes]
    rw [this, ih]

theorem txBytes_ier (k : Config) (baseport val : Nat) (hport : k.UART_TX ≠ k.UART_IER) :
    txBytes k baseport [Event.outpt (baseport + k.UART_IER) val] = [] := by
  have : baseport + k.UART_IER ≠ baseport + k.UART_TX := by omega
  simp [txBytes, this]

theorem outpt_thri_conserve (k : Config) (s : Driver) (dev iirv rxv val : Nat)
    (hne : k.UART_IIR_RDI ≠ k.UART_IIR_THRI)
    (hid : iirv &&& k.UART_IIR_ID = k.UART_IIR_THRI) (hport : k.UART_TX ≠ k.UART_IER)
    (hwf : s.TX_Queue.WF) :
    ∃ evs,
      (outpt k (thriIrq k dev iirv rxv) s ((k.devtab dev).dvbaseport + k.UART_IER) val).trace =
          s.trace ++ evs ∧
        txBytes k (k.devtab dev).dvbaseport evs ++
            (outpt k (thriIrq k dev iirv rxv) s ((k.devtab dev).dvbaseport + k.UART_IER)
              val).TX_Queue.toList = s.TX_Queue.toList ∧
        (outpt k (thriIrq k dev iirv rxv) s ((k.devtab dev).dvbaseport + k.UART_IER)
          val).TX_Queue.WF ∧
        (outpt k (thriIrq k dev iirv rxv) s ((k.devtab dev).dvbaseport + k.UART_IER)
          val).TX_Queue.max = s.TX_Queue.max ∧
        (val = k.UART_IER_THRI →
          (outpt k (thriIrq k dev iirv rxv) s ((k.devtab dev).dvbaseport + k.UART_IER)
            val).TX_Queue.num = 0) := by
  by_cases hv : val = k.UART_IER_THRI
  · have e : outpt k (thriIrq k dev iirv rxv) s ((k.devtab dev).dvbaseport + k.UART_IER) val =
        irqinthandc k (emit s (.outpt ((k.devtab dev).dvbaseport + k.UART_IER) val)) dev iirv
          rxv := by
      simp [outpt, thriIrq, service, hv]
    obtain ⟨g1, g2, g3, g4, _, _⟩ := isr_thri_effect k
      (emit s (.outpt ((k.devtab dev).dvbaseport + k.UART_IER) val)) dev iirv rxv hne hid
      (by simpa [emit] using hwf)
    rw [e]
    refine ⟨[Event.outpt ((k.devtab dev).dvbaseport + k.UART_IER) val,
        Event.inpt ((k.devtab dev).dvbaseport + k.UART_IIR), Event.pic_end_int] ++
        s.TX_Queue.toList.map (fun c => Event.outpt ((k.devtab dev).dvbaseport + k.UART_TX) c),
      ?_, ?_, g3, ?_, fun _ => g2⟩
    · rw [g1]; simp [emit]
    · rw [toList_of_num_zero _ g2, txBytes_append, txBytes_outpts]
      have : (k.devtab dev).dvbaseport + k.UART_IER ≠ (k.devtab dev).dvbaseport + k.UART_TX := by
        omega
      simp [txBytes, this]
    · rw [g4]; simp [emit]
  · have e : outpt k (thriIrq k dev iirv rxv) s ((k.devtab dev).dvbaseport + k.UART_IER) val =
        emit s (.outpt ((k.devtab dev).dvbaseport + k.UART_IER) val) := by
      simp [outpt, thriIrq, service, hv]
    rw [e]
    refine ⟨[Event.outpt ((k.devtab dev).dvbaseport + k.UART_IER) val], rfl, ?_,
      by simpa [emit] using hwf, rfl, fun h => absurd h hv⟩
    rw [txBytes_ier k _ val hport]
    simp [emit]

theorem kick_thri (k : Config) (s : Driver) (dev iirv rxv : Nat)
    (hne : k.UART_IIR_RDI ≠ k.UART_IIR_THRI)
    (hid : iirv &&& k.UART_IIR_ID = k.UART_IIR_THRI) (hport : k.UART_TX ≠ k.UART_IER)
    (hwf : s.TX_Queue.WF) :
    ∃ evs,
      (kick k (thriIrq k dev iirv rxv) s (k.devtab dev).dvbaseport).trace = s.trace ++ evs ∧
        txBytes k (k.devtab dev).dvbaseport evs = s.TX_Queue.toList ∧
        (kick k (thriIrq k dev iirv rxv) s (k.devtab dev).dvbaseport).TX_Queue.WF ∧
        (kick k (thriIrq k dev iirv rxv) s (k.devtab dev).dvbaseport).TX_Queue.max =
          s.TX_Queue.max ∧
        (kick k (thriIrq k dev iirv rxv) s (k.devtab dev).dvbaseport).TX_Queue.num = 0 := by
  obtain ⟨e1, t1, c1, w1, m1, z1⟩ :=
    outpt_thri_conserve k s dev iirv rxv k.UART_IER_THRI hne hid hport hwf
  obtain ⟨e2, t2, c2, w2, m2, _⟩ :=
    outpt_thri_conserve k _ dev iirv rxv (lnot k.UART_IER_THRI) hne hid hport w1
  obtain ⟨e3, t3, c3, w3, m3, _⟩ :=
    outpt_thri_conserve k _ dev iirv rxv k.UART_IER_RDI hne hid hport w2
  have l1 := toList_of_num_zero _ (z1 rfl)
  rw [l1, List.append_nil] at c1
  rw [l1] at c2
  obtain ⟨b2, l2⟩ := List.append_eq_nil.mp c2
  rw [l2] at c3
  obtain ⟨b3, l3⟩ := List.append_eq_nil.mp c3
  refine ⟨e1 ++ e2 ++ e3, ?_, ?_, w3, ?_, ?_⟩
  · simp only [kick]
    rw [t3, t2, t1]
    simp only [List.append_assoc]
  · rw [txBytes_append, txBytes_append, c1, b2, b3]
    simp
  · simp only [kick]
    rw [m3, m2, m1]
  · have := toList_length
      (kick k (thriIrq k dev iirv rxv) s (k.devtab dev).dvbaseport).TX_Queue
    simp only [kick] at this ⊢
    rw [l3] at this
    exact this.symm

theorem ttywriteLoop_thri (k : Config) (dev iirv rxv : Nat) (buf : Nat → Nat)
    (hne : k.UART_IIR_RDI ≠ k.UART_IIR_THRI)
    (hid : iirv &&& k.UART_IIR_ID = k.UART_IIR_THRI) (hport : k.UART_TX ≠ k.UART_IER) :
    ∀ (n fuel : Nat) (s : Driver) (c : Nat),
      s.TX_Queue.WF → s.TX_Queue.max = MAXBUF → 2 * n ≤ fuel →
      ∃ s1 evs,
        ttywriteLoop k (thriIrq k dev iirv rxv) (k.devtab dev).dvbaseport buf fuel s (n : Int) c =
            some (s1, c + n) ∧
          s1.trace = s.trace ++ evs ∧
          txBytes k (k.devtab dev).dvbaseport evs ++ s1.TX_Queue.toList =
            s.TX_Queue.toList ++ (List.range n).map (fun i => buf (c + i)) ∧
          s1.TX_Queue.WF ∧ s1.TX_Queue.max = MAXBUF := by
  intro n
  induction n with
  | zero =>
    intro fuel s c hwf hmax _
    exact ⟨s, [], by simpa using ttywriteLoop_done k _ _ buf fuel s c, by simp,
      by simp [txBytes], hwf, hmax⟩
  | succ n ih =>
    have room : ∀ (f : Nat) (s : Driver) (c : Nat), s.TX_Queue.WF → s.TX_Queue.max = MAXBUF →
        s.TX_Queue.num ≠ MAXBUF → 2 * n ≤ f →
        ∃ s1 evs,
          ttywriteLoop k (thriIrq k dev iirv rxv) (k.devtab dev).dvbaseport buf (f + 1) s
              ((n + 1 : Nat) : Int) c = some (s1, c + (n + 1)) ∧
            s1.trace = s.trace ++ evs ∧
            txBytes k (k.devtab dev).dvbaseport evs ++ s1.TX_Queue.toList =
              s.TX_Queue.toList ++ (List.range (n + 1)).map (fun i => buf (c + i)) ∧
            s1.TX_Queue.WF ∧ s1.TX_Queue.max = MAXBUF := by
      intro f s c hwf hmax hq hf
      have hlt : s.TX_Queue.num < s.TX_Queue.max := by
        have := hwf.2.2.2.1
        omega
      obtain ⟨hwf1, hlist, _, hmax1⟩ := enqueue_spec s.TX_Queue (buf c) hwf hlt
      obtain ⟨s1, evs, hrun, ht, hcons, w, m⟩ := ih f (tx_enqueue s (buf c)) (c + 1)
        (by simpa [tx_enqueue] using hwf1) (by simp only [tx_enqueue]; omega) hf
      refine ⟨s1, evs, ?_, ?_, ?_, w, m⟩
      · rw [ttywriteLoop_room k _ _ buf f s _ c (by push_cast; omega) hq]
        have e : ((n + 1 : Nat) : Int) - 1 = (n : Int) := by push_cast; omega
        rw [e, hrun, Nat.add_assoc, Nat.add_comm 1 n]
      · rw [ht]; simp [tx_enqueue]
      · rw [hcons, range_shift]
        simp only [tx_enqueue, hlist, List.append_assoc, List.singleton_append]
    intro fuel s c hwf hmax hf
    obtain ⟨f, rfl⟩ : ∃ f, fuel = f + 1 := ⟨fuel - 1, by omega⟩
    by_cases hq : s.TX_Queue.num = MAXBUF
    · obtain ⟨g, rfl⟩ : ∃ g, f = g + 1 := ⟨f - 1, by omega⟩
      obtain ⟨e0, t0, c0, w0, m0, z0⟩ := kick_thri k s dev iirv rxv hne hid hport hwf
      obtain ⟨s1, evs, hrun, ht, hcons, w, m⟩ :=
        room g (kick k (thriIrq k dev iirv rxv) s (k.devtab dev).dvbaseport) c w0
          (by rw [m0]; exact hmax) (by rw [z0]; decide) (by omega)
      refine ⟨s1, e0 ++ evs, ?_, ?_, ?_, w, m⟩
      · rw [ttywriteLoop_full k _ _ buf (g + 1) s _ c (by push_cast; omega) hq]
        exact hrun
      · rw [ht, t0, List.append_assoc]
      · rw [txBytes_append, List.append_assoc, hcons, toList_of_num_zero _ z0, c0]
        simp
    · exact room f s c hwf hmax hq (by omega)

/-- C3: on hardware that answers every write of `UART_IER_THRI` to the
interrupt-enable register with one transmit-holding-empty interrupt, `ttywrite`
of `n` bytes returns `n` for every iteration bound `fuel ≥ 2n` (whatever `n`,
also above the queue depth 6), leaves the transmit queue empty, and the values
written to the transmit-data register during the call are the bytes queued
before it followed by `buf[0]`, ..., `buf[n-1]`, in that order, once each.
(Assumed of the constants: the two `case` labels differ and the transmit-data
and interrupt-enable registers are different ports.) -/
theorem ttywrite_flushes (k : Config) (s : Driver) (dev iirv rxv : Nat) (buf : Nat → Nat)
    (n fuel : Nat) (hne : k.UART_IIR_RDI ≠ k.UART_IIR_THRI)
    (hid : iirv &&& k.UART_IIR_ID = k.UART_IIR_THRI) (hport : k.UART_TX ≠ k.UART_IER)
    (hwf : s.TX_Queue.WF) (hmax : s.TX_Queue.max = MAXBUF) (hf : 2 * n ≤ fuel) :
    ∃ s1 evs, ttywrite k (thriIrq k dev iirv rxv) fuel s dev buf (n : Int) = some (s1, n) ∧
      s1.TX_Queue.toList = [] ∧
      s1.trace = s.trace ++ evs ∧
      txBytes k (k.devtab dev).dvbaseport evs = s.TX_Queue.toList ++ (List.range n).map buf := by
  obtain ⟨s1, evs, hrun, ht, hcons, w, _⟩ :=
    ttywriteLoop_thri k dev iirv rxv buf hne hid hport n fuel s 0 hwf hmax hf
  obtain ⟨e0, t0, c0, _, _, z0⟩ := kick_thri k s1 dev iirv rxv hne hid hport w
  refine ⟨kick k (thriIrq k dev iirv rxv) s1 (k.devtab dev).dvbaseport, evs ++ e0, ?_,
    toList_of_num_zero _ z0, ?_, ?_⟩
  · simp only [ttywrite, hrun, Nat.zero_add]
  · rw [t0, ht, List.append_assoc]
  · rw [txBytes_append, c0, hcons]
    simp

/-- C3 at a concrete input: eight bytes (more than the queue depth) written on
line 0 of `sapc` while 0x42, 0x43 are still queued. -/
theorem ttywrite_flushes_witness :
    (sapc.UART_IIR_RDI ≠ sapc.UART_IIR_THRI ∧ 0x02 &&& sapc.UART_IIR_ID = sapc.UART_IIR_THRI ∧
      sapc.UART_TX ≠ sapc.UART_IER ∧ busy.TX_Queue.WF ∧ busy.TX_Queue.max = MAXBUF) ∧
    ∃ s1 evs, ttywrite sapc (thriIrq sapc 0 0x02 0) 16 busy 0 hello ((8 : Nat) : Int) =
        some (s1, 8) ∧
      s1.TX_Queue.toList = [] ∧
      s1.trace = busy.trace ++ evs ∧
      txBytes sapc (sapc.devtab 0).dvbaseport evs =
        busy.TX_Queue.toList ++ (List.range 8).map hello :=
  ⟨by decide, ttywrite_flushes sapc busy 0 0x02 0 hello 8 16 (by decide) (by decide) (by decide)
    (by decide) (by decide) (by decide)⟩


/-! ## Queue discipline in reachable states -/

theorem drainCalls_disciplined (n : Nat) : ∀ c ∈ drainCalls n, c.disciplined := by
  induction n with
  | zero => intro c hc; simp [drainCalls] at hc
  | succ n ih =>
    intro c hc
    simp only [drainCalls, List.mem_cons] at hc
    rcases hc with rfl | hc
    · exact ⟨fun _ => Nat.succ_pos n, fun h => (by cases h)⟩
    · exact ih c hc

theorem inv_emit (s : Driver) (e : Event) (h : Inv s) : Inv (emit s e) := h

theorem inv_rx_enqueue (s : Driver) (ch : Nat) (h : Inv s) : Inv (rx_enqueue s ch) := by
  obtain ⟨h3, h4, h5⟩ := h
  refine ⟨h3, h4, ?_⟩
  intro c hc
  simp only [rx_enqueue, List.mem_append, List.mem_singleton] at hc
  rcases hc with hc | rfl
  · exact h5 c hc
  · exact ⟨fun h => (by cases h), fun _ h => (by cases h)⟩

theorem inv_tx_enqueue (s : Driver) (ch : Nat) (h : Inv s) (hq : s.TX_Queue.num ≠ MAXBUF) :
    Inv (tx_enqueue s ch) := by
  obtain ⟨h3, h4, h5⟩ := h
  have hle : s.TX_Queue.num ≤ MAXBUF := by rw [← h4]; exact h3.2.2.2.1
  obtain ⟨w, _, _, m⟩ := enqueue_spec s.TX_Queue ch h3 (by omega)
  refine ⟨w, m.trans h4, ?_⟩
  intro c hc
  simp only [tx_enqueue, List.mem_append, List.mem_singleton] at hc
  rcases hc with hc | rfl
  · exact h5 c hc
  · refine ⟨fun h => (by cases h), fun _ _ => ?_⟩
    show s.TX_Queue.num < MAXBUF
    omega

theorem inv_rx_dequeue (s : Driver) (h : Inv s) (hq : 0 < s.RX_Queue.num) :
    Inv (rx_dequeue s).2 := by
  obtain ⟨h3, h4, h5⟩ := h
  refine ⟨h3, h4, ?_⟩
  intro c hc
  simp only [rx_dequeue, List.mem_append, List.mem_singleton] at hc
  rcases hc with hc | rfl
  · exact h5 c hc
  · exact ⟨fun _ => hq, fun h => (by cases h)⟩

theorem inv_txdrain (k : Config) (baseport : Nat) (s : Driver) (h : Inv s) :
    Inv (txdrain k baseport s) := by
  obtain ⟨h3, h4, h5⟩ := h
  obtain ⟨_, _, g3, g4, _, _, _, g8⟩ := txdrain_spec k baseport _ s rfl h3
  refine ⟨g3, g4.trans h4, ?_⟩
  intro c hc
  rw [g8, List.mem_append] at hc
  rcases hc with hc | hc
  · exact h5 c hc
  · exact drainCalls_disciplined _ c hc

theorem inv_isr (k : Config) (s : Driver) (dev iirv rxv : Nat) (h : Inv s) :
    Inv (irqinthandc k s dev iirv rxv) := by
  by_cases h1 : iirv &&& k.UART_IIR_ID = k.UART_IIR_RDI
  · rw [irq_rdi k s dev iirv rxv h1]
    exact inv_txdrain _ _ _ (inv_emit _ _ (inv_rx_enqueue _ _
      (inv_emit _ _ (inv_emit _ _ (inv_emit _ _ h)))))
  · by_cases h2 : iirv &&& k.UART_IIR_ID = k.UART_IIR_THRI
    · rw [irq_thri k s dev iirv rxv h1 h2]
      exact inv_txdrain _ _ _ (inv_emit _ _ (inv_emit _ _ h))
    · rw [irq_other k s dev iirv rxv h1 h2]
      exact inv_emit _ _ h

theorem inv_service (k : Config) (irqs : List Irq) :
    ∀ s : Driver, Inv s → Inv (service k s irqs) := by
  induction irqs with
  | nil => intro s h; exact h
  | cons i rest ih =>
    intro s h
    exact ih _ (inv_isr k s i.dev i.iir i.rx h)

theorem inv_outpt (k : Config) (hw : Uart) (s : Driver) (port val : Nat) (h : Inv s) :
    Inv (outpt k hw s port val) :=
  inv_service k _ _ (inv_emit _ _ h)

theorem inv_kick (k : Config) (hw : Uart) (s : Driver) (baseport : Nat) (h : Inv s) :
    Inv (kick k hw s baseport) :=
  inv_outpt _ _ _ _ _ (inv_outpt _ _ _ _ _ (inv_outpt _ _ _ _ _ h))

theorem inv_ttyinit (k : Config) (hw : Uart) (s : Driver) (dev : Nat)
    (h : ∀ c ∈ s.qcalls, c.disciplined) : Inv (ttyinit k hw s dev) := by
  have hq : ∀ q : Queue, (init_queue q MAXBUF).WF ∧ (init_queue q MAXBUF).max = MAXBUF :=
    fun q => ⟨(init_queue_spec q MAXBUF (by decide)).1, rfl⟩
  have base : ∀ tab tr, Inv ⟨tab, init_queue s.RX_Queue MAXBUF, init_queue s.TX_Queue MAXBUF,
      DEBUG_AREA, tr, s.qcalls⟩ :=
    fun _ _ => ⟨(hq s.TX_Queue).1, (hq s.TX_Queue).2, h⟩
  unfold ttyinit
  by_cases h1 : (k.devtab dev).dvbaseport = k.COM1_BASE
  · simp only [if_pos h1]
    exact inv_outpt _ _ _ _ _ (base _ _)
  · by_cases h2 : (k.devtab dev).dvbaseport = k.COM2_BASE
    · simp only [if_neg h1, if_pos h2]
      exact inv_outpt _ _ _ _ _ (base _ _)
    · simp only [if_neg h1, if_neg h2]
      exact base _ _

theorem inv_ttyreadLoop :
    ∀ (fuel : Nat) (s : Driver) (buf : Nat → Nat) (nchar : Int) (c : Nat)
      (r : Driver × (Nat → Nat) × Nat),
      Inv s → ttyreadLoop fuel s buf nchar c = some r → Inv r.1 := by
  intro fuel
  induction fuel with
  | zero =>
    intro s buf nchar c r h hr
    by_cases hn : nchar = 0
    · subst hn
      rw [ttyreadLoop_done] at hr
      cases hr
      exact h
    · rw [ttyreadLoop] at hr
      simp [hn] at hr
  | succ f ih =>
    intro s buf nchar c r h hr
    by_cases hn : nchar = 0
    · subst hn
      rw [ttyreadLoop_done] at hr
      cases hr
      exact h
    · by_cases hq : s.RX_Queue.num = 0
      · rw [ttyreadLoop_spin f s buf nchar c hn hq] at hr
        exact ih _ _ _ _ _ h hr
      · have hpos : 0 < s.RX_Queue.num := Nat.pos_of_ne_zero hq
        rw [ttyreadLoop_step f s buf nchar c hn hpos] at hr
        exact ih _ _ _ _ _ (inv_rx_dequeue s h hpos) hr

theorem inv_ttywriteLoop (k : Config) (hw : Uart) (baseport : Nat) (buf : Nat → Nat) :
    ∀ (fuel : Nat) (s : Driver) (nchar : Int) (c : Nat) (r : Driver × Nat),
      Inv s → ttywriteLoop k hw baseport buf fuel s nchar c = some r → Inv r.1 := by
  intro fuel
  induction fuel with
  | zero =>
    intro s nchar c r h hr
    by_cases hn : nchar = 0
    · subst hn
      rw [ttywriteLoop_done] at hr
      cases hr
      exact h
    · rw [ttywriteLoop] at hr
      simp [hn] at hr
  | succ f ih =>
    intro s nchar c r h hr
    by_cases hn : nchar = 0
    · subst hn
      rw [ttywriteLoop_done] at hr
      cases hr
      exact h
    · by_cases hq : s.TX_Queue.num = MAXBUF
      · rw [ttywriteLoop_full k hw baseport buf f s nchar c hn hq] at hr
        exact ih _ _ _ _ (inv_kick k hw s baseport h) hr
      · rw [ttywriteLoop_room k hw baseport buf f s nchar c hn hq] at hr
        exact ih _ _ _ _ (inv_tx_enqueue s _ h hq) hr

theorem inv_ttywrite (k : Config) (hw : Uart) (fuel : Nat) (s : Driver) (dev : Nat)
    (buf : Nat → Nat) (nchar : Int) (r : Driver × Nat) (h : Inv s)
    (hr : ttywrite k hw fuel s dev buf nchar = some r) : Inv r.1 := by
  unfold ttywrite at hr
  cases hl : ttywriteLoop k hw (k.devtab dev).dvbaseport buf fuel s nchar 0 with
  | none => simp [hl] at hr
  | some p =>
    simp only [hl, Option.some.injEq] at hr
    subst hr
    exact inv_kick k hw p.1 _ (inv_ttywriteLoop k hw _ buf fuel s nchar 0 p h hl)

theorem reachable_inv (k : Config) (s : Driver) (h : Reachable k s) : Inv s := by
  induction h with
  | init hw s0 dev h0 =>
    exact inv_ttyinit k hw s0 dev (by rw [h0]; intro c hc; cases hc)
  | reinit hw s dev _ ih => exact inv_ttyinit k hw s dev ih.2.2
  | isr s dev iirv rxv _ ih => exact inv_isr k s dev iirv rxv ih
  | read s fuel dev buf nchar r _ hr ih =>
    exact inv_ttyreadLoop fuel s buf nchar 0 r ih hr
  | write hw s fuel dev buf nchar r _ hr ih =>
    exact inv_ttywrite k hw fuel s dev buf nchar r ih hr

/-- The guarded call sites: in every reachable state the transmit queue holds
at most `MAXBUF` bytes, every `dequeue` the driver has made saw a count above 0
and every `enqueue` on the transmit queue saw a count below `MAXBUF`. -/
theorem reachable_guarded_sites (k : Config) (s : Driver) (h : Reachable k s) :
    s.TX_Queue.num ≤ MAXBUF ∧
      ∀ c ∈ s.qcalls, (c.op = QOp.deq → 0 < c.count) ∧
        (c.op = QOp.enq → c.q = QId.tx → c.count < MAXBUF) := by
  obtain ⟨h3, h4, h5⟩ := reachable_inv k s h
  refine ⟨?_, h5⟩
  rw [← h4]; exact h3.2.2.2.1

theorem isr_rdi_state (k : Config) (s : Driver) (dev iirv b : Nat)
    (hid : iirv &&& k.UART_IIR_ID = k.UART_IIR_RDI) (htx : s.TX_Queue.WF) :
    (irqinthandc k s dev iirv b).RX_Queue = enqueue s.RX_Queue b ∧
      (irqinthandc k s dev iirv b).qcalls =
        s.qcalls ++ ⟨.enq, .rx, s.RX_Queue.num⟩ :: drainCalls s.TX_Queue.num ∧
      (irqinthandc k s dev iirv b).TX_Queue.num = 0 ∧
      (irqinthandc k s dev iirv b).TX_Queue.WF := by
  rw [irq_rdi k s dev iirv b hid]
  obtain ⟨_, h2, h3, _, h5, _, _, h8⟩ := txdrain_spec k (k.devtab dev).dvbaseport _
    (emit (rx_enqueue (emit (emit (emit s (.inpt ((k.devtab dev).dvbaseport + k.UART_IIR)))
      .pic_end_int) (.inpt ((k.devtab dev).dvbaseport + k.UART_RX))) b) .pic_end_int) rfl
    (by simpa [emit, rx_enqueue] using htx)
  refine ⟨?_, ?_, h2, h3⟩
  · rw [h5]; simp [emit, rx_enqueue]
  · rw [h8]; simp [emit, rx_enqueue, queuecount]

theorem received_reachable : ∀ n : Nat, Reachable sapc (received n)
  | 0 => Reachable.init noIrq boot 0 rfl
  | n + 1 => Reachable.isr (received n) 0 0x04 0x41 (received_reachable n)

theorem received_state :
    ∀ n : Nat, n ≤ MAXBUF →
      (received n).RX_Queue.WF ∧ (received n).RX_Queue.max = MAXBUF ∧
        (received n).RX_Queue.num = n ∧ (received n).TX_Queue.WF := by
  intro n
  induction n with
  | zero => intro _; decide
  | succ n ih =>
    intro hn
    obtain ⟨w, m, r, wt⟩ := ih (by omega)
    obtain ⟨h1, _, _, h4⟩ := isr_rdi_state sapc (received n) 0 0x04 0x41 (by decide) wt
    obtain ⟨e1, _, e3, e4⟩ := enqueue_spec (received n).RX_Queue 0x41 w (by omega)
    have hs : (received (n + 1)).RX_Queue = enqueue (received n).RX_Queue 0x41 := h1
    refine ⟨?_, ?_, ?_, h4⟩
    · rw [hs]; exact e1
    · rw [hs]; exact e4.trans m
    · rw [hs, e3, r]

/-- C10 (the code departs from the claim): after `ttyinit` and six
receive-data interrupts on line 0 of `sapc` the receive queue holds 6 =
`MAXBUF` bytes.  The seventh interrupt makes `irqinthandc` call `enqueue` on it
all the same: the call is in the history with count 6, which is not below
capacity, and afterwards the receive queue, still of depth 6, reports 7
bytes. -/
theorem rx_overrun_unguarded :
    Reachable sapc (received 7) ∧
      (received 6).RX_Queue.num = MAXBUF ∧
      received 7 = irqinthandc sapc (received 6) 0 0x04 0x41 ∧
      (⟨QOp.enq, QId.rx, MAXBUF⟩ : QCall) ∈ (received 7).qcalls ∧
      ¬ (⟨QOp.enq, QId.rx, MAXBUF⟩ : QCall).guarded ∧
      (received 7).RX_Queue.max = MAXBUF ∧
      (received 7).RX_Queue.num = 7 ∧
      ¬ (received 7).RX_Queue.num ≤ MAXBUF := by
  obtain ⟨_, m, r, wt⟩ := received_state 6 (by decide)
  obtain ⟨h1, h2, _, _⟩ := isr_rdi_state sapc (received 6) 0 0x04 0x41 (by decide) wt
  have hs : (received 7).RX_Queue = enqueue (received 6).RX_Queue 0x41 := h1
  have hq : (received 7).qcalls = (received 6).qcalls ++
      ⟨.enq, .rx, (received 6).RX_Queue.num⟩ :: drainCalls (received 6).TX_Queue.num := h2
  have hnum : (received 7).RX_Queue.num = 7 := by
    rw [hs]
    show (received 6).RX_Queue.num + 1 = 7
    rw [r]
  refine ⟨received_reachable 7, r, rfl, ?_, by decide, ?_, hnum, ?_⟩
  · rw [hq, r]
    simp [MAXBUF]
  · rw [hs]
    exact m
  · rw [hnum]
    decide

end SapcTty
